import Mathlib

/-!
A shallow embedding of the batch-based liquid-staking accounting engine of
the `milkyway-contracts` staking contract, together with theorems settling
claims about its specification.

The embedding translates `src/contracts/staking/src/execute.rs`,
`state.rs` and `query.rs`.  `Uint128` amounts are modelled as `Nat`
(overflow aborts the host transaction and is outside the scope of the
properties below); `HashMap` request maps are modelled as association
lists; fallible entry points return `Except ContractError`.  Functions of
the `milky_way` support library and of `helpers.rs` that are not part of
the given sources are modelled from the specification and marked as such
in their doc comments.
-/

namespace Staking

/-- Batch lifecycle status (`milky_way::staking::BatchStatus`).
Modelled from the spec: states `Pending → Submitted → Received`. -/
inductive BatchStatus where
  | pending
  | submitted
  | received
deriving DecidableEq, Repr

/-- `milky_way::staking::LiquidUnstakeRequest`.
Modelled from the spec: `{ requester: Identity, shares: Amount, redeemed: bool }`. -/
structure LiquidUnstakeRequest where
  user : String
  shares : Nat
  redeemed : Bool
deriving DecidableEq, Repr

/-- `LiquidUnstakeRequest::new(user, amount)`.
Modelled from the spec: a new entry is created with `shares = amount`;
`redeemed` starts false (it "flips once" only at claim settlement). -/
def LiquidUnstakeRequest.new (user : String) (shares : Nat) : LiquidUnstakeRequest :=
  { user := user, shares := shares, redeemed := false }

/-- `milky_way::staking::Batch`.  The `liquid_unstake_requests` `HashMap`
is modelled as an association list keyed by the requester address. -/
structure Batch where
  id : Nat
  batch_total_liquid_stake : Nat
  expected_native_unstaked : Option Nat
  received_native_unstaked : Option Nat
  next_batch_action_time : Option Nat
  status : BatchStatus
  liquid_unstake_requests : List (String × LiquidUnstakeRequest)
deriving DecidableEq, Repr

/-- `Batch::new(id, batch_total_liquid_stake, est_next_batch_time)`.
Modelled from the spec: a brand-new batch is opened with the given id and
total, status `Pending`, `next_action_time` scheduled at the given time,
and an empty request map. -/
def Batch.new (id : Nat) (total : Nat) (est_next_batch_time : Nat) : Batch :=
  { id := id
    batch_total_liquid_stake := total
    expected_native_unstaked := none
    received_native_unstaked := none
    next_batch_action_time := some est_next_batch_time
    status := BatchStatus.pending
    liquid_unstake_requests := [] }

/-- `Batch::update_status(new_status, next_batch_action_time)`.
Modelled from the spec: the transition sets the status and the
`next_action_time` field (e.g. `Submitted` with `now + unbonding_period`). -/
def Batch.update_status (b : Batch) (s : BatchStatus) (t : Option Nat) : Batch :=
  { b with status := s, next_batch_action_time := t }

/-- The `Config` item of `state.rs`, restricted to the fields the staking
entry points read. -/
structure Config where
  liquid_stake_token_denom : String
  batch_period : Nat
  unbonding_period : Nat
  minimum_liquid_stake_amount : Nat
deriving DecidableEq, Repr

/-- The `State` item of `state.rs` (the pool state). -/
structure State where
  total_native_token : Nat
  total_liquid_stake_token : Nat
  native_token_to_stake : Nat
  pending_owner : Option String
deriving DecidableEq, Repr

/-- The persisted contract storage: the `CONFIG` and `STATE` items, the
`PENDING_BATCH` item, and the `BATCHES` map (as an association list keyed
by batch id). -/
structure Storage where
  config : Config
  state : State
  pending_batch : Batch
  batches : List (Nat × Batch)
deriving DecidableEq, Repr

/-- The ambient `Env` of a call. -/
structure Env where
  contract_address : String
  block_time : Nat
deriving DecidableEq, Repr

/-- `MessageInfo`. -/
structure MessageInfo where
  sender : String
deriving DecidableEq, Repr

/-- The contract errors the embedded entry points can raise. -/
inductive ContractError where
  | MinimumLiquidStakeAmount (minimum_stake_amount : Nat) (sent_amount : Nat)
  | MintError
  | Unauthorized
deriving DecidableEq, Repr

/-- The messages the embedded entry points emit: the tokenfactory
mint/burn instructions and the `SubmitBatch` self-call. -/
inductive CosmosMsg where
  | mint (sender : String) (denom : String) (amount : Nat) (mint_to_address : String)
  | burn (sender : String) (denom : String) (amount : Nat) (burn_from_address : String)
  | wasmExecSubmitBatch (contract_addr : String) (batch_id : Nat)
deriving DecidableEq, Repr

/-- A `Response`: emitted messages and attributes. -/
structure Response where
  messages : List CosmosMsg
  attributes : List (String × String)
deriving DecidableEq, Repr

/-- Modelled from the spec: `helpers::compute_mint_amount` is not under
`src/`; §4.1 defines `mint_amount(total_native, total_derivative,
deposit)`: if `total_derivative == 0` (bootstrap) it returns `deposit`,
otherwise `floor(deposit * total_derivative / total_native)`. -/
def compute_mint_amount (total_native : Nat) (total_liquid : Nat) (deposit : Nat) : Nat :=
  if total_liquid = 0 then deposit else deposit * total_liquid / total_native

/-- Modelled from the spec: `helpers::compute_unbond_amount` is not under
`src/`; §4.1 defines `unbond_amount(total_native, total_derivative,
shares_redeemed)` as `floor(shares_redeemed * total_native /
total_derivative)`, or zero if `total_derivative == 0`. -/
def compute_unbond_amount (total_native : Nat) (total_liquid : Nat) (shares : Nat) : Nat :=
  if total_liquid = 0 then 0 else shares * total_native / total_liquid

/-- `Uint128::checked_sub(..).unwrap_or_else(|_| Uint128::zero())`:
subtraction clamped at zero. -/
def checkedSubOrZero (a b : Nat) : Nat :=
  if b ≤ a then a - b else 0

/-- `HashMap::get` on the request map: the entry stored under the key. -/
def findRequest (sender : String) : List (String × LiquidUnstakeRequest) →
    Option LiquidUnstakeRequest
  | [] => none
  | (k, r) :: rest => if k = sender then some r else findRequest sender rest

/-- `request.shares += amount` through `HashMap::get_mut`: add `amount`
to the shares of the entry stored under the key. -/
def addShares (sender : String) (amount : Nat) : List (String × LiquidUnstakeRequest) →
    List (String × LiquidUnstakeRequest)
  | [] => []
  | (k, r) :: rest =>
      if k = sender then (k, { r with shares := r.shares + amount }) :: rest
      else (k, r) :: addShares sender amount rest

/-- `BATCHES.save(storage, id, batch)`: insert or overwrite the entry
stored under the key. -/
def saveBatch (id : Nat) (b : Batch) : List (Nat × Batch) → List (Nat × Batch)
  | [] => [(id, b)]
  | (k, v) :: rest => if k = id then (k, b) :: rest else (k, v) :: saveBatch id b rest

/-- `BATCHES.load(storage, id)`. -/
def loadBatch (id : Nat) : List (Nat × Batch) → Option Batch
  | [] => none
  | (k, v) :: rest => if k = id then some v else loadBatch id rest

/-- `execute_liquid_stake` (`execute.rs` lines 15-67): validates the
minimum amount, computes the mint amount, aborts with `MintError` when it
is zero, otherwise emits the mint message and adds the deposit and the
mint amount to the pool totals. -/
def execute_liquid_stake (s : Storage) (env : Env) (info : MessageInfo) (amount : Nat) :
    Except ContractError (Storage × Response) :=
  let config := s.config
  let state := s.state
  if config.minimum_liquid_stake_amount < amount then
    let mint_amount :=
      compute_mint_amount state.total_native_token state.total_liquid_stake_token amount
    if mint_amount = 0 then
      Except.error ContractError.MintError
    else
      let mint_msg := CosmosMsg.mint env.contract_address config.liquid_stake_token_denom
        mint_amount info.sender
      let state' := { state with
        total_native_token := state.total_native_token + amount
        total_liquid_stake_token := state.total_liquid_stake_token + mint_amount }
      Except.ok ({ s with state := state' },
        { messages := [mint_msg]
          attributes := [("action", "liquid_stake"), ("sender", info.sender),
            ("amount", toString amount)] })
  else
    Except.error (ContractError.MinimumLiquidStakeAmount
      config.minimum_liquid_stake_amount amount)

/-- `execute_liquid_unstake` (`execute.rs` lines 69-128): validates the
minimum amount, records the request in the pending batch (incrementing an
existing entry's shares or inserting a new entry) and adds the amount to
the batch total; then, only when `next_batch_action_time` is set, emits
the `SubmitBatch` self-call if `next_batch_action_time >=
env.block.time.seconds()` and saves the updated pending batch. -/
def execute_liquid_unstake (s : Storage) (env : Env) (info : MessageInfo) (amount : Nat) :
    Except ContractError (Storage × Response) :=
  let config := s.config
  if config.minimum_liquid_stake_amount < amount then
    let pending_batch := s.pending_batch
    let requests :=
      match findRequest info.sender pending_batch.liquid_unstake_requests with
      | some _ => addShares info.sender amount pending_batch.liquid_unstake_requests
      | none => pending_batch.liquid_unstake_requests ++
          [(info.sender, LiquidUnstakeRequest.new info.sender amount)]
    let pending_batch' := { pending_batch with
      liquid_unstake_requests := requests
      batch_total_liquid_stake := pending_batch.batch_total_liquid_stake + amount }
    let stepped :=
      match pending_batch'.next_batch_action_time with
      | some est_next_batch_action =>
          let msgs :=
            if env.block_time ≤ est_next_batch_action then
              [CosmosMsg.wasmExecSubmitBatch env.contract_address pending_batch'.id]
            else []
          ({ s with pending_batch := pending_batch' }, msgs)
      | none => (s, ([] : List CosmosMsg))
    Except.ok (stepped.1,
      { messages := stepped.2
        attributes := [("action", "liquid_unstake"), ("sender", info.sender),
          ("amount", toString amount)] })
  else
    Except.error (ContractError.MinimumLiquidStakeAmount
      config.minimum_liquid_stake_amount amount)

/-- `execute_submit_batch` (`execute.rs` lines 269-346): only callable by
the contract itself; marks the pending batch `Submitted` with
`next_batch_action_time = now + unbonding_period`, archives it in
`BATCHES` under its id, opens a new pending batch with the next id, emits
the burn message for the closed batch's total, and reduces the pool
totals by the computed unbond amount and the batch total, clamping at
zero.  The `id` argument is used only in a response attribute. -/
def execute_submit_batch (s : Storage) (env : Env) (info : MessageInfo) (id : Nat) :
    Except ContractError (Storage × Response) :=
  if info.sender = env.contract_address then
    let config := s.config
    let state := s.state
    let batch := (s.pending_batch).update_status BatchStatus.submitted
      (some (env.block_time + config.unbonding_period))
    let batches' := saveBatch batch.id batch s.batches
    let new_pending_batch := Batch.new (batch.id + 1) 0 (env.block_time + config.batch_period)
    let tokenfactory_burn_msg := CosmosMsg.burn env.contract_address
      config.liquid_stake_token_denom batch.batch_total_liquid_stake env.contract_address
    let unbond_amount := compute_unbond_amount state.total_native_token
      state.total_liquid_stake_token batch.batch_total_liquid_stake
    let state' := { state with
      total_native_token := checkedSubOrZero state.total_native_token unbond_amount
      total_liquid_stake_token :=
        checkedSubOrZero state.total_liquid_stake_token batch.batch_total_liquid_stake }
    let s' := { s with
      batches := batches'
      pending_batch := new_pending_batch
      state := state' }
    Except.ok (s',
      { messages := [tokenfactory_burn_msg]
        attributes := [("action", "submit_batch"), ("batch_id", toString id),
          ("batch_total", toString batch.batch_total_liquid_stake)] })
  else
    Except.error ContractError.Unauthorized

/-- The storage an entry-point call leaves behind: the returned storage on
success, the unchanged storage on error (the host reverts all writes of a
failed call). -/
def applyResult (s : Storage) (r : Except ContractError (Storage × Response)) : Storage :=
  match r with
  | Except.ok (s', _) => s'
  | Except.error _ => s

/-- Modelled from the spec: `helpers::paginate_map` is not under `src/`;
the spec describes paginated listings over the batch table in ascending
key order, starting after an optional key, truncated to an optional
limit, with an optional filter predicate applied to values. -/
def paginate_map (batches : List (Nat × Batch)) (start_after : Option Nat)
    (limit : Option Nat) (filter : Batch → Bool) : List Batch :=
  let after :=
    match start_after with
    | some k => batches.filter (fun (p : Nat × Batch) => decide (k < p.1))
    | none => batches
  let vals := (after.map Prod.snd).filter filter
  match limit with
  | some n => vals.take n
  | none => vals

/-- The `.filter(|b| !b.liquid_unstake_requests.get(&user).unwrap().redeemed)`
step of `query_claimable`: `none` models the panic of `.unwrap()` on a
batch holding no request for the user. -/
def claimableFilter (user : String) : List Batch → Option (List Batch)
  | [] => some []
  | b :: rest =>
      match findRequest user b.liquid_unstake_requests with
      | none => none
      | some r =>
          match claimableFilter user rest with
          | none => none
          | some rs => if r.redeemed then some rs else some (b :: rs)

/-- `query_claimable` (`query.rs` lines 155-183): pages `BATCHES` keeping
batches with status `Received`, then keeps those whose request for `user`
has `redeemed == false`, unwrapping the request lookup.  `none` models a
panic. -/
def query_claimable (s : Storage) (user : String) (start_after : Option Nat)
    (limit : Option Nat) : Option (List Batch) :=
  let received := paginate_map s.batches start_after limit
    (fun b => decide (b.status = BatchStatus.received))
  claimableFilter user received

/-- The sum of the shares of all entries of a request map. -/
def sumShares (requests : List (String × LiquidUnstakeRequest)) : Nat :=
  (requests.map (fun p => p.2.shares)).sum

/-- The per-batch ledger invariant: the batch total equals the sum of the
recorded shares. -/
def BatchInv (b : Batch) : Prop :=
  b.batch_total_liquid_stake = sumShares b.liquid_unstake_requests

/-- The storage-wide ledger invariant: the pending batch and every
archived batch satisfy `BatchInv`. -/
def StorageInv (s : Storage) : Prop :=
  BatchInv s.pending_batch ∧ ∀ p ∈ s.batches, BatchInv p.2

instance (b : Batch) : Decidable (BatchInv b) := by
  unfold BatchInv; infer_instance

instance (s : Storage) : Decidable (StorageInv s) := by
  unfold StorageInv; infer_instance

/-! Concrete fixtures used to evaluate the entry points at explicit
inputs. -/

/-- A sample configuration: batch period 100, unbonding period 1000,
minimum liquid-stake amount 5. -/
def exConfig : Config :=
  { liquid_stake_token_denom := "stTIA"
    batch_period := 100
    unbonding_period := 1000
    minimum_liquid_stake_amount := 5 }

/-- A sample pool state with totals (1000, 1000). -/
def exState : State :=
  { total_native_token := 1000
    total_liquid_stake_token := 1000
    native_token_to_stake := 0
    pending_owner := none }

/-- A sample open batch, id 1, scheduled for action at time 10. -/
def exBatch : Batch := Batch.new 1 0 10

/-- A sample storage: the fixtures above and an empty batch archive. -/
def exStorage : Storage :=
  { config := exConfig, state := exState, pending_batch := exBatch, batches := [] }

/-- An environment whose block time 20 is past the batch's scheduled
action time 10. -/
def exEnv : Env := { contract_address := "contract", block_time := 20 }

/-- An environment whose block time 5 is before the batch's scheduled
action time 10. -/
def exEnvEarly : Env := { contract_address := "contract", block_time := 5 }

/-- A user caller. -/
def exUser : MessageInfo := { sender := "alice" }

/-- The contract calling itself. -/
def exContract : MessageInfo := { sender := "contract" }

/-- A storage whose pending batch has no scheduled action time. -/
def exStorageNoTime : Storage :=
  { exStorage with pending_batch := { exBatch with next_batch_action_time := none } }

/-- A batch with status `Received` and no unstake requests. -/
def exReceivedBatch : Batch := { exBatch with status := BatchStatus.received }

/-- A storage whose archive holds the received batch above. -/
def exStorageReceived : Storage := { exStorage with batches := [(1, exReceivedBatch)] }

/-- A pool state with totals (1000, 1), a rate at which a 500-token
deposit mints zero shares. -/
def exStateThin : State :=
  { total_native_token := 1000
    total_liquid_stake_token := 1
    native_token_to_stake := 0
    pending_owner := none }

/-- A storage carrying `exStateThin`. -/
def exStorageThin : Storage := { exStorage with state := exStateThin }

/-- An open batch holding a single 150-share request. -/
def exBatchBig : Batch :=
  { Batch.new 1 150 10 with
    liquid_unstake_requests := [("alice", LiquidUnstakeRequest.new "alice" 150)] }

/-- A storage whose pending batch total 150 exceeds the pool's liquid
total 100, so the settlement subtractions clamp. -/
def exStorageBig : Storage :=
  { exStorage with
    state := { exState with total_liquid_stake_token := 100 }
    pending_batch := exBatchBig }

/-- The storage left by submitting `exStorage`'s pending batch. -/
def exSubmittedStorage : Storage :=
  applyResult exStorage (execute_submit_batch exStorage exEnv exContract 1)

/-- The response of submitting `exStorage`'s pending batch. -/
def exSubmitResponse : Response :=
  { messages := [CosmosMsg.burn "contract" "stTIA" 0 "contract"]
    attributes := [("action", "submit_batch"), ("batch_id", "1"), ("batch_total", "0")] }

/-- The storage left by submitting `exStorageBig`'s pending batch. -/
def exBigSubmitted : Storage :=
  applyResult exStorageBig (execute_submit_batch exStorageBig exEnv exContract 1)

/-- The response of submitting `exStorageBig`'s pending batch. -/
def exBigResponse : Response :=
  { messages := [CosmosMsg.burn "contract" "stTIA" 150 "contract"]
    attributes := [("action", "submit_batch"), ("batch_id", "1"), ("batch_total", "150")] }

/-- The storage left by alice unstaking 100 more from `exStorageBig`. -/
def exUnstaked : Storage :=
  applyResult exStorageBig (execute_liquid_unstake exStorageBig exEnv exUser 100)

/-- The response of alice unstaking 100 from `exStorageBig`. -/
def exUnstakeResponse : Response :=
  { messages := []
    attributes := [("action", "liquid_unstake"), ("sender", "alice"), ("amount", "100")] }

/-! Helper lemmas about the request-map and batch-archive operations. -/

@[simp]
theorem sumShares_nil : sumShares [] = 0 := rfl

@[simp]
theorem sumShares_cons (p : String × LiquidUnstakeRequest)
    (l : List (String × LiquidUnstakeRequest)) :
    sumShares (p :: l) = p.2.shares + sumShares l := rfl

@[simp]
theorem sumShares_append (l₁ l₂ : List (String × LiquidUnstakeRequest)) :
    sumShares (l₁ ++ l₂) = sumShares l₁ + sumShares l₂ := by
  induction l₁ with
  | nil => simp
  | cons p l ih => simp [ih]; omega

theorem sumShares_addShares (sender : String) (amount : Nat)
    (l : List (String × LiquidUnstakeRequest)) (h : (findRequest sender l).isSome) :
    sumShares (addShares sender amount l) = sumShares l + amount := by
  induction l with
  | nil => simp [findRequest] at h
  | cons p l ih =>
      obtain ⟨k, r⟩ := p
      by_cases hk : k = sender
      · simp [addShares, hk]; omega
      · simp only [findRequest, if_neg hk] at h
        simp [addShares, hk, ih h]; omega

theorem mem_saveBatch {id : Nat} {b : Batch} {l : List (Nat × Batch)}
    {p : Nat × Batch} (h : p ∈ saveBatch id b l) : p.2 = b ∨ p ∈ l := by
  induction l with
  | nil =>
      simp [saveBatch] at h
      subst h; left; rfl
  | cons q l ih =>
      obtain ⟨k, v⟩ := q
      by_cases hk : k = id
      · simp only [saveBatch, if_pos hk, List.mem_cons] at h
        rcases h with h | h
        · subst h; left; rfl
        · right; exact List.mem_cons_of_mem _ h
      · simp only [saveBatch, if_neg hk, List.mem_cons] at h
        rcases h with h | h
        · subst h; right; exact List.mem_cons_self _ _
        · rcases ih h with h' | h'
          · left; exact h'
          · right; exact List.mem_cons_of_mem _ h'

theorem loadBatch_saveBatch (id : Nat) (b : Batch) (l : List (Nat × Batch)) :
    loadBatch id (saveBatch id b l) = some b := by
  induction l with
  | nil => simp [saveBatch, loadBatch]
  | cons q l ih =>
      obtain ⟨k, v⟩ := q
      by_cases hk : k = id
      · simp [saveBatch, loadBatch, hk]
      · simp [saveBatch, loadBatch, hk, ih]

@[simp]
theorem compute_unbond_amount_zero (n l : Nat) : compute_unbond_amount n l 0 = 0 := by
  unfold compute_unbond_amount
  split <;> simp

@[simp]
theorem checkedSubOrZero_zero (a : Nat) : checkedSubOrZero a 0 = a := by
  simp [checkedSubOrZero]

/-- C1: refuted by the code.  At a state whose pending batch is scheduled
for action at time 10, an unstake at block time 20 (the deadline has been
reached) succeeds yet emits no `SubmitBatch` self-call, while an unstake
at block time 5 (before the deadline) does emit one: the source compares
`est_next_batch_action >= env.block.time.seconds()`, which is the reverse
of "current time has reached next_batch_action_time". -/
theorem C1_submit_trigger_reversed :
    exStorage.pending_batch.next_batch_action_time = some 10 ∧
    10 ≤ exEnv.block_time ∧
    (execute_liquid_unstake exStorage exEnv exUser 100).map (fun p => p.2.messages) =
      Except.ok [] ∧
    exEnvEarly.block_time < 10 ∧
    (execute_liquid_unstake exStorage exEnvEarly exUser 100).map (fun p => p.2.messages) =
      Except.ok [CosmosMsg.wasmExecSubmitBatch "contract" 1] :=
  ⟨rfl, by decide, rfl, by decide, rfl⟩

/-- C3: refuted by the code.  When the pending batch's
`next_batch_action_time` is `None`, the requester has no entry and the
batch total is 0; an unstake of 100 passes the minimum check and returns
`Ok`, yet the resulting storage is exactly the original one: the updated
batch is computed but `PENDING_BATCH.save` sits inside the
`if let Some(..)` block, so nothing is stored. -/
theorem C3_update_dropped_without_action_time :
    exStorageNoTime.pending_batch.next_batch_action_time = none ∧
    findRequest "alice" exStorageNoTime.pending_batch.liquid_unstake_requests = none ∧
    exStorageNoTime.pending_batch.batch_total_liquid_stake = 0 ∧
    execute_liquid_unstake exStorageNoTime exEnv exUser 100 =
      Except.ok (exStorageNoTime, exUnstakeResponse) :=
  ⟨rfl, rfl, rfl, rfl⟩

/-- C9: refuted by the code.  On a storage whose archive holds a batch
with status `Received` and no request for the user, `query_claimable`
panics (`.get(&user).unwrap()` on a missing entry), modelled as `none`,
instead of returning a result. -/
theorem C9_claimable_panics_on_missing_request :
    exReceivedBatch.status = BatchStatus.received ∧
    findRequest "alice" exReceivedBatch.liquid_unstake_requests = none ∧
    query_claimable exStorageReceived "alice" none none = none :=
  ⟨rfl, rfl, rfl⟩

/-- C5: for every call of `execute_liquid_stake` that passes the minimum
check (hence has a non-zero deposit) and whose computed mint amount is
zero, the call returns `MintError` and leaves the stored state
unchanged. -/
theorem C5_zero_mint_aborts (s : Storage) (env : Env) (info : MessageInfo) (amount : Nat)
    (hmin : s.config.minimum_liquid_stake_amount < amount)
    (hzero : compute_mint_amount s.state.total_native_token s.state.total_liquid_stake_token
      amount = 0) :
    execute_liquid_stake s env info amount = Except.error ContractError.MintError ∧
    applyResult s (execute_liquid_stake s env info amount) = s := by
  have herr : execute_liquid_stake s env info amount = Except.error ContractError.MintError := by
    unfold execute_liquid_stake
    rw [if_pos hmin, if_pos hzero]
  exact ⟨herr, by rw [herr]; rfl⟩

/-- C5 witness: at pool totals (1000, 1), a 500-token deposit passes the
minimum check but mints `floor(500 * 1 / 1000) = 0` shares, so the call
fails with `MintError` and the storage is unchanged. -/
theorem C5_zero_mint_aborts_witness :
    execute_liquid_stake exStorageThin exEnv exUser 500 =
      Except.error ContractError.MintError ∧
    applyResult exStorageThin (execute_liquid_stake exStorageThin exEnv exUser 500) =
      exStorageThin :=
  C5_zero_mint_aborts exStorageThin exEnv exUser 500 (by decide) (by decide)

/-- C8: refuted by the code at an amount equal to the minimum.  With
`minimum_liquid_stake_amount = 5`, an unstake of exactly 5 is rejected
with the validation error, while the claim states an amount equal to the
minimum is accepted (`ensure!(amount > minimum)` requires strictly
greater). -/
theorem C8_equal_minimum_rejected :
    exStorage.config.minimum_liquid_stake_amount = 5 ∧
    execute_liquid_unstake exStorage exEnv exUser 5 =
      Except.error (ContractError.MinimumLiquidStakeAmount 5 5) :=
  ⟨rfl, rfl⟩

/-- C8 amended: `execute_liquid_unstake` fails with the validation error
exactly when the amount is less than or equal to the configured minimum
(an amount equal to the minimum is also rejected); on rejection the
stored state is unchanged, and any strictly greater amount passes the
check. -/
theorem C8_minimum_check (s : Storage) (env : Env) (info : MessageInfo) (amount : Nat) :
    (amount ≤ s.config.minimum_liquid_stake_amount →
      execute_liquid_unstake s env info amount =
        Except.error (ContractError.MinimumLiquidStakeAmount
          s.config.minimum_liquid_stake_amount amount) ∧
      applyResult s (execute_liquid_unstake s env info amount) = s) ∧
    (s.config.minimum_liquid_stake_amount < amount →
      (execute_liquid_unstake s env info amount).isOk = true) := by
  constructor
  · intro hle
    have herr : execute_liquid_unstake s env info amount =
        Except.error (ContractError.MinimumLiquidStakeAmount
          s.config.minimum_liquid_stake_amount amount) := by
      unfold execute_liquid_unstake
      rw [if_neg (by omega)]
    exact ⟨herr, by rw [herr]; rfl⟩
  · intro hlt
    unfold execute_liquid_unstake
    rw [if_pos hlt]
    rfl

/-- C8 witness: with minimum 5, an unstake of 3 is rejected with the
validation error and an unstake of 100 passes the check. -/
theorem C8_minimum_check_witness :
    execute_liquid_unstake exStorage exEnv exUser 3 =
      Except.error (ContractError.MinimumLiquidStakeAmount 5 3) ∧
    (execute_liquid_unstake exStorage exEnv exUser 100).isOk = true :=
  ⟨((C8_minimum_check exStorage exEnv exUser 3).1 (by decide)).1,
   (C8_minimum_check exStorage exEnv exUser 100).2 (by decide)⟩

/-- C10: for every stored state, environment, sender and pair of id
arguments, the two runs of `execute_submit_batch` produce the same
resulting storage and the same emitted messages (and the same error when
they fail): the `id` argument only reaches the `batch_id` response
attribute. -/
theorem C10_id_argument_no_influence (s : Storage) (env : Env) (info : MessageInfo)
    (id id' : Nat) :
    Except.map (fun p => (p.1, p.2.messages)) (execute_submit_batch s env info id) =
      Except.map (fun p => (p.1, p.2.messages)) (execute_submit_batch s env info id') := by
  unfold execute_submit_batch
  by_cases h : info.sender = env.contract_address
  · rw [if_pos h, if_pos h]; rfl
  · rw [if_neg h, if_neg h]

/-- C6: every successful `execute_submit_batch` call archives the
previously pending batch under its id with status `Submitted` and
`next_batch_action_time = now + unbonding_period`, and stores a new
pending batch with the next id, a zero total, status `Pending` and
`next_batch_action_time = now + batch_period`; the pending batch id
strictly increases by exactly one. -/
theorem C6_submit_archives_and_rolls_batch (s : Storage) (env : Env) (info : MessageInfo)
    (id : Nat) (s' : Storage) (r : Response)
    (hauth : info.sender = env.contract_address)
    (hok : execute_submit_batch s env info id = Except.ok (s', r)) :
    loadBatch s.pending_batch.id s'.batches =
      some (Batch.update_status s.pending_batch BatchStatus.submitted
        (some (env.block_time + s.config.unbonding_period))) ∧
    (Batch.update_status s.pending_batch BatchStatus.submitted
      (some (env.block_time + s.config.unbonding_period))).status = BatchStatus.submitted ∧
    (Batch.update_status s.pending_batch BatchStatus.submitted
      (some (env.block_time + s.config.unbonding_period))).next_batch_action_time =
        some (env.block_time + s.config.unbonding_period) ∧
    s'.pending_batch =
      Batch.new (s.pending_batch.id + 1) 0 (env.block_time + s.config.batch_period) ∧
    s'.pending_batch.id = s.pending_batch.id + 1 ∧
    s'.pending_batch.batch_total_liquid_stake = 0 ∧
    s'.pending_batch.next_batch_action_time = some (env.block_time + s.config.batch_period) ∧
    s'.pending_batch.status = BatchStatus.pending ∧
    s.pending_batch.id < s'.pending_batch.id := by
  unfold execute_submit_batch at hok
  rw [if_pos hauth] at hok
  simp only [Except.ok.injEq, Prod.mk.injEq] at hok
  obtain ⟨hs, hr⟩ := hok
  subst hs
  refine ⟨?_, rfl, rfl, rfl, rfl, rfl, rfl, rfl, Nat.lt_succ_self _⟩
  exact loadBatch_saveBatch _ _ _

/-- C6 witness: submitting `exStorage`'s batch 1 at block time 20
archives it under id 1 as `Submitted` with action time 20 + 1000, and
opens pending batch 2 with a zero total and action time 20 + 100. -/
theorem C6_submit_archives_and_rolls_batch_witness :
    loadBatch 1 exSubmittedStorage.batches =
      some (Batch.update_status exBatch BatchStatus.submitted (some 1020)) ∧
    exSubmittedStorage.pending_batch = Batch.new 2 0 120 :=
  ⟨(C6_submit_archives_and_rolls_batch exStorage exEnv exContract 1 exSubmittedStorage
      exSubmitResponse rfl rfl).1,
   (C6_submit_archives_and_rolls_batch exStorage exEnv exContract 1 exSubmittedStorage
      exSubmitResponse rfl rfl).2.2.2.1⟩

/-- C7: every successful `execute_submit_batch` call sets the pool's
native total to the old total minus the computed unbond amount and the
liquid total to the old total minus the closed batch's total, each
subtraction clamping at zero (it yields the plain difference when the
subtrahend fits and zero when it exceeds the current total, never an
underflow or a panic). -/
theorem C7_pool_decrement_clamped (s : Storage) (env : Env) (info : MessageInfo)
    (id : Nat) (s' : Storage) (r : Response)
    (hauth : info.sender = env.contract_address)
    (hok : execute_submit_batch s env info id = Except.ok (s', r)) :
    s'.state.total_native_token =
      checkedSubOrZero s.state.total_native_token
        (compute_unbond_amount s.state.total_native_token s.state.total_liquid_stake_token
          s.pending_batch.batch_total_liquid_stake) ∧
    s'.state.total_liquid_stake_token =
      checkedSubOrZero s.state.total_liquid_stake_token
        s.pending_batch.batch_total_liquid_stake ∧
    (compute_unbond_amount s.state.total_native_token s.state.total_liquid_stake_token
        s.pending_batch.batch_total_liquid_stake ≤ s.state.total_native_token →
      s'.state.total_native_token =
        s.state.total_native_token -
          compute_unbond_amount s.state.total_native_token s.state.total_liquid_stake_token
            s.pending_batch.batch_total_liquid_stake) ∧
    (s.state.total_native_token <
        compute_unbond_amount s.state.total_native_token s.state.total_liquid_stake_token
          s.pending_batch.batch_total_liquid_stake →
      s'.state.total_native_token = 0) ∧
    (s.pending_batch.batch_total_liquid_stake ≤ s.state.total_liquid_stake_token →
      s'.state.total_liquid_stake_token =
        s.state.total_liquid_stake_token - s.pending_batch.batch_total_liquid_stake) ∧
    (s.state.total_liquid_stake_token < s.pending_batch.batch_total_liquid_stake →
      s'.state.total_liquid_stake_token = 0) := by
  unfold execute_submit_batch at hok
  rw [if_pos hauth] at hok
  simp only [Except.ok.injEq, Prod.mk.injEq] at hok
  obtain ⟨hs, hr⟩ := hok
  subst hs
  refine ⟨rfl, rfl, ?_, ?_, ?_, ?_⟩ <;>
    intro h <;> simp only [Batch.update_status, checkedSubOrZero]
  · rw [if_pos h]
  · rw [if_neg (by omega)]
  · rw [if_pos h]
  · rw [if_neg (by omega)]

/-- C7 witness: from pool totals (1000, 100) and a closed batch total of
150, the unbond amount is 1500 and both subtractions clamp: the new
totals are `checkedSubOrZero 1000 1500 = 0` and
`checkedSubOrZero 100 150 = 0`. -/
theorem C7_pool_decrement_clamped_witness :
    exBigSubmitted.state.total_native_token =
      checkedSubOrZero 1000 (compute_unbond_amount 1000 100 150) ∧
    exBigSubmitted.state.total_liquid_stake_token = checkedSubOrZero 100 150 :=
  ⟨(C7_pool_decrement_clamped exStorageBig exEnv exContract 1 exBigSubmitted
      exBigResponse rfl rfl).1,
   (C7_pool_decrement_clamped exStorageBig exEnv exContract 1 exBigSubmitted
      exBigResponse rfl rfl).2.1⟩

/-- C4: the ledger invariant — every batch total equals the sum of the
shares of its request entries — holds of the storages produced by
`execute_liquid_unstake` and by `execute_submit_batch` whenever it holds
of the input storage. -/
theorem C4_ledger_invariant_preserved (s : Storage) (env₁ env₂ : Env)
    (info₁ info₂ : MessageInfo) (amount id : Nat) (s₁ s₂ : Storage) (r₁ r₂ : Response)
    (hinv : StorageInv s)
    (h₁ : execute_liquid_unstake s env₁ info₁ amount = Except.ok (s₁, r₁))
    (h₂ : execute_submit_batch s env₂ info₂ id = Except.ok (s₂, r₂)) :
    StorageInv s₁ ∧ StorageInv s₂ := by
  constructor
  · by_cases hmin : s.config.minimum_liquid_stake_amount < amount
    · unfold execute_liquid_unstake at h₁
      rw [if_pos hmin] at h₁
      cases hfind : findRequest info₁.sender s.pending_batch.liquid_unstake_requests with
      | some req =>
          cases htime : s.pending_batch.next_batch_action_time with
          | some t =>
              simp only [hfind, htime, Except.ok.injEq, Prod.mk.injEq] at h₁
              obtain ⟨hs, -⟩ := h₁
              subst hs
              refine ⟨?_, fun p hp => hinv.2 p hp⟩
              show s.pending_batch.batch_total_liquid_stake + amount =
                sumShares (addShares info₁.sender amount
                  s.pending_batch.liquid_unstake_requests)
              rw [sumShares_addShares info₁.sender amount _ (by rw [hfind]; rfl), hinv.1]
          | none =>
              simp only [hfind, htime, Except.ok.injEq, Prod.mk.injEq] at h₁
              obtain ⟨hs, -⟩ := h₁
              subst hs
              exact hinv
      | none =>
          cases htime : s.pending_batch.next_batch_action_time with
          | some t =>
              simp only [hfind, htime, Except.ok.injEq, Prod.mk.injEq] at h₁
              obtain ⟨hs, -⟩ := h₁
              subst hs
              refine ⟨?_, fun p hp => hinv.2 p hp⟩
              show s.pending_batch.batch_total_liquid_stake + amount =
                sumShares (s.pending_batch.liquid_unstake_requests ++
                  [(info₁.sender, LiquidUnstakeRequest.new info₁.sender amount)])
              rw [sumShares_append, hinv.1]
              simp [LiquidUnstakeRequest.new]
          | none =>
              simp only [hfind, htime, Except.ok.injEq, Prod.mk.injEq] at h₁
              obtain ⟨hs, -⟩ := h₁
              subst hs
              exact hinv
    · unfold execute_liquid_unstake at h₁
      rw [if_neg hmin] at h₁
      simp at h₁
  · by_cases hauth : info₂.sender = env₂.contract_address
    · unfold execute_submit_batch at h₂
      rw [if_pos hauth] at h₂
      simp only [Except.ok.injEq, Prod.mk.injEq] at h₂
      obtain ⟨hs, -⟩ := h₂
      subst hs
      refine ⟨rfl, ?_⟩
      intro p hp
      rcases mem_saveBatch hp with hpb | hpl
      · rw [hpb]; exact hinv.1
      · exact hinv.2 p hpl
    · unfold execute_submit_batch at h₂
      rw [if_neg hauth] at h₂
      simp at h₂

/-- C4 witness: `exStorageBig` satisfies the ledger invariant, and so do
the storages left by alice unstaking 100 more and by submitting the
batch. -/
theorem C4_ledger_invariant_preserved_witness :
    StorageInv exUnstaked ∧ StorageInv exBigSubmitted :=
  C4_ledger_invariant_preserved exStorageBig exEnv exEnv exUser exContract 100 1
    exUnstaked exBigSubmitted exUnstakeResponse exBigResponse (by decide) rfl rfl

/-- C2 amended: re-submitting with an already-archived id does not fail;
`execute_submit_batch` ignores its id argument (except in a response
attribute) and submits the current pending batch.  Immediately after a
successful submit the pending batch total is zero, so a second call —
with the replayed id or any other — succeeds and leaves both pool totals
unchanged: the archived batch is not settled a second time. -/
theorem C2_resubmit_ignores_id (s : Storage) (env env' : Env) (info : MessageInfo)
    (id id' : Nat) (s₁ : Storage) (r₁ : Response)
    (h : info.sender = env.contract_address)
    (h' : info.sender = env'.contract_address)
    (hok : execute_submit_batch s env info id = Except.ok (s₁, r₁)) :
    ∃ s₂ r₂, execute_submit_batch s₁ env' info id' = Except.ok (s₂, r₂) ∧
      s₂.state = s₁.state := by
  unfold execute_submit_batch at hok
  rw [if_pos h] at hok
  simp only [Except.ok.injEq, Prod.mk.injEq] at hok
  obtain ⟨hs, -⟩ := hok
  subst hs
  unfold execute_submit_batch
  rw [if_pos h']
  refine ⟨_, _, rfl, ?_⟩
  simp only [Batch.new, Batch.update_status, compute_unbond_amount_zero,
    checkedSubOrZero_zero]

/-- C2 amended witness: after submitting `exStorage`'s batch 1, a second
call with the fresh id 7 succeeds and leaves the pool totals of the
archived batch untouched. -/
theorem C2_resubmit_ignores_id_witness :
    ∃ s₂ r₂, execute_submit_batch exSubmittedStorage exEnv exContract 7 =
        Except.ok (s₂, r₂) ∧
      s₂.state = exSubmittedStorage.state :=
  C2_resubmit_ignores_id exStorage exEnv exEnv exContract 1 7 exSubmittedStorage
    exSubmitResponse rfl rfl rfl

/-- C2 counterexample: with batch 1 already archived in `BATCHES` (the
storage left by submitting it), calling `execute_submit_batch` again with
the same id 1 returns `Ok`, not an error — the claim's "fails with an
error" is false on the code. -/
theorem C2_resubmit_does_not_fail :
    (loadBatch 1 exSubmittedStorage.batches).isSome = true ∧
    (execute_submit_batch exSubmittedStorage exEnv exContract 1).isOk = true :=
  ⟨rfl, rfl⟩

end Staking
